import Mathlib

/-!
Verification of the ETF monster stat-block conversion pipeline
(`parse_and_convert_monsters.py`).  The Python source is shallowly embedded:
pure numeric helpers become functions on `ℕ`/`ℤ`/`ℚ` (Python `//` is floor
division, Python `round` is banker's rounding; Python float arithmetic is
modelled by exact rationals, and wherever that model is faithful only on a
bounded or restricted domain, the bound appears as an explicit hypothesis
of the theorem that relies on it), the regular-expression rewrites are embedded as
explicit character-list scanners implementing the same matching discipline
(leftmost match, non-overlapping global substitution, lazy groups), and the
BeautifulSoup tree queries are embedded over an explicit markup-tree type.
-/

set_option maxRecDepth 40000

namespace ETF

/-! ## Numeric rule library -/

/-- Python `round` (used in `calculate_hits`, line 215/220 of
`parse_and_convert_monsters.py`): round half to even (banker's rounding),
applied here to the exact rational quotient.  The Python code rounds the
IEEE-double quotient `k / 6` instead; for `0 ≤ k < 2^53` the two agree:
`k` converts to double exactly, the quotient is below `2^51` so the
correctly rounded double errs by at most `1/8 < 1/6` (the minimum
distance of a non-half quotient `k/6` to a half-integer), and half-integer
quotients (`k = 6*m + 3`) are computed exactly.  Beyond `2^53` the double
computation can round differently (e.g. `k = 13510798882111496` rounds to
`2251799813685250` in Python but the exact quotient rounds to
`2251799813685249`), so the theorems that use this model carry the
`< 2^53` bound as a hypothesis. -/
def pyRound (q : ℚ) : ℤ :=
  if q - (⌊q⌋ : ℚ) < 1 / 2 then ⌊q⌋
  else if 1 / 2 < q - (⌊q⌋ : ℚ) then ⌊q⌋ + 1
  else if ⌊q⌋ % 2 = 0 then ⌊q⌋ else ⌊q⌋ + 1

/-- Python `round(a / b)` for `b > 0`, computed on the exact quotient with
integer arithmetic (`a.fdiv b` is the floor, `a - b * (a.fdiv b)` the
remainder).  `pyRoundDiv_eq` proves it equal to `pyRound ((a : ℚ) / b)`;
like `pyRound`, it matches the program's double computation only for
`0 ≤ a < 2^53` (with `b = 6`), which the theorems state as a hypothesis. -/
def pyRoundDiv (a b : ℤ) : ℤ :=
  if 2 * (a - b * a.fdiv b) < b then a.fdiv b
  else if b < 2 * (a - b * a.fdiv b) then a.fdiv b + 1
  else if a.fdiv b % 2 = 0 then a.fdiv b else a.fdiv b + 1

/-- `cr_to_level` (lines 41-63): the CR → ETF-level step table. -/
def cr_to_level (cr : ℚ) : ℕ :=
  if cr ≤ 0 then 1
  else if cr ≤ 1 then 1
  else if cr ≤ 3 then 2
  else if cr ≤ 5 then 3
  else if cr ≤ 7 then 4
  else if cr ≤ 9 then 5
  else if cr ≤ 11 then 6
  else if cr ≤ 13 then 7
  else if cr ≤ 15 then 8
  else if cr ≤ 17 then 9
  else 10

/-- Numeric core of `convert_hp` (lines 88-91): `(hp + 9) // 10`, minimum 1.
Operates on the first decimal-digit run found in the HP text. -/
def hpScale (n : ℕ) : ℕ := max 1 ((n + 9) / 10)

/-- `modifier_to_score` (lines 296-298): `score = modifier * 2 + 10`. -/
def modifier_to_score (modifier : ℤ) : ℤ := modifier * 2 + 10

/-- `score_to_modifier` (lines 300-302): `(score - 10) // 2`;
Python `//` is floor division, i.e. `Int.fdiv`. -/
def score_to_modifier (score : ℤ) : ℤ := (score - 10).fdiv 2

/-! ## Character-level embedding of the regex rewrites

Each fixed pattern of the Python source is embedded as an explicit scanner
over `List Char` with the exact matching discipline of CPython `re`:
leftmost match, greedy `\d+`/`\s+`/`\s*`, lazy `([^.]+?)?` (resolved to the
earliest completion position, with backtracking where a required tail
follows), and non-overlapping left-to-right global substitution for
`re.sub` (replacements are not rescanned). -/

abbrev Cs := List Char

/-- Python's `\s` / `str.strip` whitespace set: space, `\t`, `\n`, `\v`,
`\f`, `\r` (ASCII; the inputs here are ASCII markup). -/
def pyIsSpace (c : Char) : Bool :=
  c == ' ' || c == '\t' || c == '\n' || c == '\r' || c.toNat == 11 || c.toNat == 12

/-- Python's `\w` word-character class, ASCII part (for `\b` boundaries). -/
def isWordChar (c : Char) : Bool := c.isAlphanum || c == '_'

/-- Case-insensitive character comparison (the `re.IGNORECASE` flag). -/
def lowEq (a b : Char) : Bool := a.toLower == b.toLower

/-- Match a literal pattern case-sensitively; return the rest on success. -/
def litCS : Cs → Cs → Option Cs
  | [], s => some s
  | _ :: _, [] => none
  | p :: ps, c :: cs => if p == c then litCS ps cs else none

/-- Match a literal pattern case-insensitively; return the rest. -/
def litCI : Cs → Cs → Option Cs
  | [], s => some s
  | _ :: _, [] => none
  | p :: ps, c :: cs => if lowEq p c then litCI ps cs else none

def digitVal (c : Char) : ℕ := c.toNat - 48

def digitsAux : Cs → ℕ → ℕ × Cs
  | [], acc => (acc, [])
  | c :: cs, acc =>
    if c.isDigit then digitsAux cs (acc * 10 + digitVal c) else (acc, c :: cs)

/-- `\d+`: at least one digit, greedy; value and rest. -/
def digits1 : Cs → Option (ℕ × Cs)
  | [] => none
  | c :: cs => if c.isDigit then some (digitsAux cs (digitVal c)) else none

/-- `(\d+)`: captured digit text, its value, and the rest. -/
def digitsSpan (s : Cs) : Option (Cs × ℕ × Cs) :=
  match s with
  | [] => none
  | c :: cs =>
    if c.isDigit then
      some ((c :: cs).takeWhile Char.isDigit,
            (digitsAux cs (digitVal c)).1,
            (c :: cs).dropWhile Char.isDigit)
    else none

/-- `\s*` (greedy). -/
def wsStar (s : Cs) : Cs := s.dropWhile pyIsSpace

/-- `\s+` (greedy, at least one). -/
def wsPlus : Cs → Option Cs
  | [] => none
  | c :: cs => if pyIsSpace c then some (wsStar cs) else none

/-- Strip leading and trailing whitespace (Python `str.strip()`). -/
def pyStripChars (s : Cs) : Cs :=
  ((s.dropWhile pyIsSpace).reverse.dropWhile pyIsSpace).reverse

/-- `re.sub` engine: at each position try the pattern; on a match emit the
replacement and resume after the match (replacements are never rescanned).
Fuel-driven (fuel = length + 1 suffices: every pattern here consumes at
least one character). -/
def subAll (tryM : Cs → Option (Cs × Cs)) : ℕ → Cs → Cs
  | 0, s => s
  | _ + 1, [] => []
  | f + 1, c :: cs =>
    match tryM (c :: cs) with
    | some (rep, rest) => rep ++ subAll tryM f rest
    | none => c :: subAll tryM f cs

def runSub (tryM : Cs → Option (Cs × Cs)) (s : Cs) : Cs :=
  subAll tryM (s.length + 1) s

/-! ### `convert_to_hit_to_defense_save_dc` (lines 65-81) -/

/-- `\+(\d+)\s+to hit` with `replace_attack`: the whole match becomes
`Defense Save DC (11 + N)`.  Case-sensitive (no IGNORECASE flag there);
`int()` on a captured digit run never raises, so the `except` branch of
`replace_attack` is unreachable. -/
def tryAttackBare (s : Cs) : Option (Cs × Cs) :=
  match s with
  | '+' :: r1 => do
    let (n, r2) ← digits1 r1
    let r3 ← wsPlus r2
    let r4 ← litCS "to hit".data r3
    some (("Defense Save DC " ++ toString (11 + n)).data, r4)
  | _ => none

/-- `Melee Weapon Attack:\s*\+(\d+)\s+to hit` (and the Ranged variant). -/
def tryAttackMarked (marker : Cs) (s : Cs) : Option (Cs × Cs) := do
  let r0 ← litCS marker s
  tryAttackBare (wsStar r0)

def convert_to_hit_to_defense_save_dc (s : Cs) : Cs :=
  runSub tryAttackBare
    (runSub (tryAttackMarked "Ranged Weapon Attack:".data)
      (runSub (tryAttackMarked "Melee Weapon Attack:".data) s))

/-! ### Shared pieces of the damage patterns -/

/-- The lazy tail `\s*([^.]+?)?\s*damage` followed by a required
continuation `k`: scan for the earliest (case-insensitive) `damage` whose
preceding region is free of `.`, accept it if `k` succeeds on the rest,
otherwise extend the lazy group past that occurrence and keep scanning
(regex backtracking).  The captured group equals the region stripped of
surrounding whitespace (the replacement functions call `.strip()` on it
anyway, line 107/249/269). -/
def lazyTypeDamageK (k : Cs → Option α) : Cs → Cs → Option (Cs × α)
  | _, [] => none
  | acc, c :: cs =>
    match litCI "damage".data (c :: cs) with
    | some rest =>
      match k rest with
      | some a => some (pyStripChars acc.reverse, a)
      | none => if c == '.' then none else lazyTypeDamageK k (c :: acc) cs
    | none => if c == '.' then none else lazyTypeDamageK k (c :: acc) cs

/-- `\d+d\d+` (the `d` is case-insensitive under IGNORECASE): captured text
and rest. -/
def diceCore (s : Cs) : Option (Cs × Cs) := do
  let (c1, _, r1) ← digitsSpan s
  match r1 with
  | d :: r2 =>
    if lowEq d 'd' then do
      let (c2, _, r3) ← digitsSpan r2
      some (c1 ++ d :: c2, r3)
    else none
  | [] => none

/-- `\s*[+\-]\s*\d+` (the optional bonus), captured text and rest. -/
def bonusSpan (s : Cs) : Option (Cs × Cs) :=
  let w1 := s.takeWhile pyIsSpace
  match s.dropWhile pyIsSpace with
  | c :: r2 =>
    if c == '+' || c == '-' then
      let w2 := r2.takeWhile pyIsSpace
      match digitsSpan (r2.dropWhile pyIsSpace) with
      | some (cd, _, r4) => some (w1 ++ c :: (w2 ++ cd), r4)
      | none => none
    else none
  | [] => none

/-- `(\d+d\d+(?:\s*[+\-]\s*\d+)?)\)`: the optional bonus is tried greedily
and dropped again if `)` does not follow (backtracking). -/
def diceGroupParen (s : Cs) : Option (Cs × Cs) := do
  let (base, r) ← diceCore s
  match bonusSpan r with
  | some (tb, r2) =>
    match r2 with
    | ')' :: r3 => some (base ++ tb, r3)
    | _ => match r with | ')' :: r3 => some (base, r3) | _ => none
  | none => match r with | ')' :: r3 => some (base, r3) | _ => none

/-- `(\d+d\d+(?:\s*[+\-]\s*\d+)?)\s*\)` (pattern 3 allows space before
the closing parenthesis). -/
def diceGroupWsParen (s : Cs) : Option (Cs × Cs) := do
  let (base, r) ← diceCore s
  match bonusSpan r with
  | some (tb, r2) =>
    match wsStar r2 with
    | ')' :: r3 => some (base ++ tb, r3)
    | _ => match wsStar r with | ')' :: r3 => some (base, r3) | _ => none
  | none => match wsStar r with | ')' :: r3 => some (base, r3) | _ => none

/-! ### `calculate_hits` and `convert_single_damage_expr` (lines 203-242) -/

/-- `re.match(r'(\d+)d(\d+)', ...)`: anchored, and case-SENSITIVE `d`
(this inner regex carries no IGNORECASE flag, unlike the outer patterns
that captured the dice text). -/
def matchDiceAnchored (s : Cs) : Option (ℕ × ℕ) := do
  let (n, r1) ← digits1 s
  match r1 with
  | 'd' :: r2 => do
    let (y, _) ← digits1 r2
    some (n, y)
  | _ => none

/-- `calculate_hits(dice_expr, bonus)` (lines 203-223).  The source
computes `round(max_dice / 6)` and `round(bonus / 6)` on IEEE doubles;
this embedding rounds the exact quotients, which agrees with the program
for `max_dice < 2^53` and `bonus < 2^53` (see `pyRound`) — the bound under
which the claim theorem states the formula. -/
def calculate_hits (diceExpr : Cs) (bonus : ℤ) : ℤ :=
  match matchDiceAnchored (pyStripChars diceExpr) with
  | none => 1
  | some (numDice, dieSize) =>
    let maxDice : ℕ := numDice * dieSize
    let diceHits : ℤ := max 1 (pyRoundDiv (maxDice : ℤ) 6)
    let total : ℤ := if bonus > 0 then diceHits + pyRoundDiv bonus 6 else diceHits
    max 1 total

/-- `re.search(r'([+\-])\s*(\d+)', dice_expr)`: earliest sign that is
followed by optional whitespace and at least one digit. -/
def searchSignBonus : Cs → Option (Char × ℕ)
  | [] => none
  | c :: cs =>
    if c == '+' || c == '-' then
      match digits1 (wsStar cs) with
      | some (n, _) => some (c, n)
      | none => searchSignBonus cs
    else searchSignBonus cs

/-- `convert_single_damage_expr(dice_expr, damage_type)` (lines 225-242):
only a `+` sign contributes a bonus; a `-` bonus is discarded, and every
`\s*[+\-]\s*\d+` run is removed from the dice text before the anchored
dice match. -/
def convert_single_damage_expr (diceExpr : Cs) (damageType : Cs) : Cs :=
  let bonus : ℤ :=
    match searchSignBonus diceExpr with
    | some ('+', n) => (n : ℤ)
    | _ => 0
  let d2 := runSub (fun s => (bonusSpan s).map fun p => (([] : Cs), p.2)) diceExpr
  let hits := calculate_hits d2 (if bonus > 0 then bonus else 0)
  let hitText := (toString hits).data ++ " hit".data ++ (if hits == 1 then [] else ['s'])
  if damageType.isEmpty then hitText
  else hitText ++ " of ".data ++ damageType ++ " damage".data

/-! ### The three damage `re.sub` patterns (lines 244-292) -/

/-- The common head `Hit:\s*\d+\s*\(` (case-insensitive). -/
def hitHead (s : Cs) : Option Cs := do
  let r0 ← litCI "Hit:".data s
  let (_, r2) ← digits1 (wsStar r0)
  match wsStar r2 with
  | '(' :: r3 => some r3
  | _ => none

/-- The `plus` tail `\s+plus\s+\d+\s*\((dice)\)` followed by its own lazy
`type damage` tail; shared by pattern 1 and the weapon-attack regex. -/
def plusTail (rest : Cs) : Option ((Cs × Cs) × Cs) := do
  let r1 ← wsPlus rest
  let r2 ← litCI "plus".data r1
  let r3 ← wsPlus r2
  let (_, r4) ← digits1 r3
  match wsStar r4 with
  | '(' :: r5 => do
    let (dice2, r6) ← diceGroupParen r5
    let (ty2, r7) ← lazyTypeDamageK some [] r6
    some ((dice2, ty2), r7)
  | _ => none

/-- Pattern 1 (`replace_hit_with_plus`, lines 246-264): a double damage
clause joined by `plus`. -/
def tryPattern1 (s : Cs) : Option (Cs × Cs) := do
  let r3 ← hitHead s
  let (dice1, r4) ← diceGroupParen r3
  let (ty1, tl) ← lazyTypeDamageK plusTail [] r4
  let ((dice2, ty2), rest) := tl
  some (("Hit: ".data ++ convert_single_damage_expr dice1 ty1
          ++ " plus ".data ++ convert_single_damage_expr dice2 ty2), rest)

/-- Pattern 2 (`replace_hit_damage`, lines 266-278): a single damage
clause. -/
def tryPattern2 (s : Cs) : Option (Cs × Cs) := do
  let r3 ← hitHead s
  let (dice, r4) ← diceGroupParen r3
  let (ty, rest) ← lazyTypeDamageK some [] r4
  some (("Hit: ".data ++ convert_single_damage_expr dice ty), rest)

/-- Pattern 3 (`replace_damage_in_parens`, lines 280-292): bare
parenthesised dice followed by `type damage`. -/
def tryPattern3 (s : Cs) : Option (Cs × Cs) :=
  match s with
  | '(' :: r1 => do
    let (dice, r2) ← diceGroupWsParen (wsStar r1)
    let (ty, rest) ← lazyTypeDamageK some [] r2
    some (('(' :: (convert_single_damage_expr dice ty ++ [')'])), rest)
  | _ => none

/-! ### `convert_weapon_damage` (lines 94-179) -/

/-- `(Melee|Ranged)\s+Weapon\s+Attack` (IGNORECASE): the length of a match
starting here. -/
def weaponMarkerLen (s : Cs) : Option ℕ := do
  let r1 ← match litCI "Melee".data s with
           | some r => some r
           | none => litCI "Ranged".data s
  let r2 ← wsPlus r1
  let r3 ← litCI "Weapon".data r2
  let r4 ← wsPlus r3
  let r5 ← litCI "Attack".data r4
  some (s.length - r5.length)

/-- `re.finditer` of the weapon marker: non-overlapping matches, resuming
after each match end. -/
def findMarkersAux : ℕ → ℕ → Cs → List ℕ
  | 0, _, _ => []
  | _ + 1, _, [] => []
  | f + 1, i, c :: cs =>
    match weaponMarkerLen (c :: cs) with
    | some L => i :: findMarkersAux f (i + L) ((c :: cs).drop L)
    | none => findMarkersAux f (i + 1) cs

def findMarkers (s : Cs) : List ℕ := findMarkersAux (s.length + 1) 0 s

/-- Python slice `s[a:b]`. -/
def slice (s : Cs) (a b : ℕ) : Cs := (s.take b).drop a

/-- `'plus' in matched_text.lower()`. -/
def containsPlusCI : Cs → Bool
  | [] => false
  | c :: cs => (litCI "plus".data (c :: cs)).isSome || containsPlusCI cs

/-- `replace_weapon_hit_single` (lines 105-110). -/
def weaponSingleRepl (ty : Cs) : Cs :=
  if ty.isEmpty then "Hit: 1 hit of damage".data
  else "Hit: 1 hit of ".data ++ ty ++ " damage".data

/-- `replace_weapon_hit_plus` (lines 112-122).  (When group 1 did not
participate at all, the Python comparison `match.lastindex >= 1` would
raise a `TypeError` on `None`; the claims' inputs never reach that state,
and this model returns the empty-type wording there.) -/
def weaponPlusRepl (ty1 : Cs) (ty2 : Option Cs) : Cs :=
  let t2 := ty2.getD []
  if !ty1.isEmpty && !t2.isEmpty then
    "Hit: 1 hit of ".data ++ ty1 ++ " damage plus 1 hit of ".data ++ t2 ++ " damage".data
  else if !ty1.isEmpty then
    "Hit: 1 hit of ".data ++ ty1 ++ " damage plus 1 hit of damage".data
  else if !t2.isEmpty then
    "Hit: 1 hit of damage plus 1 hit of ".data ++ t2 ++ " damage".data
  else
    "Hit: 1 hit of damage plus 1 hit of damage".data

/-- The weapon `Hit: ... damage [plus ... damage]` regex (lines 150-154):
match length and the computed replacement. -/
def weaponHitAt (s : Cs) : Option (ℕ × Cs) := do
  let r3 ← hitHead s
  let (_, r4) ← diceGroupParen r3
  let (ty1, r5) ← lazyTypeDamageK some [] r4
  let (restEnd, ty2) :=
    match plusTail r5 with
    | some ((_, t2), r7) => (r7, some t2)
    | none => (r5, none)
  let len := s.length - restEnd.length
  let matched := s.take len
  let repl := if containsPlusCI matched then weaponPlusRepl ty1 ty2 else weaponSingleRepl ty1
  some (len, repl)

/-- `re.search` of the weapon hit regex inside a section. -/
def searchWeaponHit : ℕ → ℕ → Cs → Option (ℕ × ℕ × Cs)
  | 0, _, _ => none
  | _ + 1, _, [] => none
  | f + 1, j, c :: cs =>
    match weaponHitAt (c :: cs) with
    | some (len, repl) => some (j, len, repl)
    | none => searchWeaponHit f (j + 1) cs

/-- The section loop of `convert_weapon_damage` (lines 137-179): slices of
the original text around each weapon marker, a 500-character lookahead
window, and `last_pos` bookkeeping exactly as in the source. -/
def weaponLoop (s : Cs) : List ℕ → ℕ → Cs
  | [], lastPos => s.drop lastPos
  | p :: ps, lastPos =>
    let pre := slice s lastPos p
    let secEnd := min (p + 500) s.length
    let sec := slice s p secEnd
    match searchWeaponHit (sec.length + 1) 0 sec with
    | some (j, len, repl) =>
      pre ++ slice s p (p + j) ++ repl ++ weaponLoop s ps (p + j + len)
    | none => pre ++ sec ++ weaponLoop s ps secEnd

def convert_weapon_damage (s : Cs) : Cs :=
  match findMarkers s with
  | [] => s
  | ps => weaponLoop s ps 0

/-- `convert_damage_to_hits` (lines 181-294): weapon override, then the
three general patterns in source order. -/
def convert_damage_to_hits (s : Cs) : Cs :=
  let s := convert_weapon_damage s
  let s := runSub tryPattern1 s
  let s := runSub tryPattern2 s
  runSub tryPattern3 s

/-! ### Word-boundary substitutions (lines 410-454) -/

def boundaryOk (prev : Option Char) : Bool :=
  match prev with
  | none => true
  | some c => !isWordChar c

/-- `re.sub` engine for patterns that inspect the character before the
match (`\b`): carries the previous original character while scanning. -/
def subAllWB (tryM : Option Char → Cs → Option (Cs × Char × Cs)) :
    ℕ → Option Char → Cs → Cs
  | 0, _, s => s
  | _ + 1, _, [] => []
  | f + 1, prev, c :: cs =>
    match tryM prev (c :: cs) with
    | some (rep, lastc, rest) => rep ++ subAllWB tryM f (some lastc) rest
    | none => c :: subAllWB tryM f (some c) cs

def runSubWB (tryM : Option Char → Cs → Option (Cs × Char × Cs)) (s : Cs) : Cs :=
  subAllWB tryM (s.length + 1) none s

/-- `\bWORD\b` (IGNORECASE) → replacement. -/
def tryWordM (w repl : Cs) (prev : Option Char) (s : Cs) : Option (Cs × Char × Cs) :=
  if boundaryOk prev then
    match litCI w s with
    | some rest =>
      if (match rest with | [] => true | r :: _ => !isWordChar r)
      then some (repl, (s.take w.length).getLastD 'x', rest)
      else none
    | none => none
  else none

/-- The free-text ability-name replacements of `convert_ability_scores`
(lines 416-432), in dict order. -/
def convert_ability_text (s : Cs) : Cs :=
  let s := runSubWB (tryWordM "STR".data "FIT".data) s
  let s := runSubWB (tryWordM "DEX".data "FIT".data) s
  let s := runSubWB (tryWordM "CON".data "FIT".data) s
  let s := runSubWB (tryWordM "INT".data "INS".data) s
  let s := runSubWB (tryWordM "WIS".data "INS".data) s
  let s := runSubWB (tryWordM "CHA".data "WIL".data) s
  let s := runSubWB (tryWordM "Strength".data "Fitness".data) s
  let s := runSubWB (tryWordM "Dexterity".data "Fitness".data) s
  let s := runSubWB (tryWordM "Constitution".data "Fitness".data) s
  let s := runSubWB (tryWordM "Intelligence".data "Insight".data) s
  let s := runSubWB (tryWordM "Wisdom".data "Insight".data) s
  runSubWB (tryWordM "Charisma".data "Willpower".data) s

/-- `\bCR\s+` → `Level ` (IGNORECASE; the greedy `\s+` is part of the
match, so runs of whitespace collapse into the single space of the
replacement). -/
def tryCRM (prev : Option Char) (s : Cs) : Option (Cs × Char × Cs) :=
  if boundaryOk prev then do
    let r1 ← litCI "CR".data s
    let r2 ← wsPlus r1
    some ("Level ".data, ' ', r2)
  else none

/-- `\bDC\s+(\d+)\s+ABIL\s+save\b` → `DC \1 TARGET save` (IGNORECASE). -/
def tryDCSave (abil target : Cs) (prev : Option Char) (s : Cs) :
    Option (Cs × Char × Cs) :=
  if boundaryOk prev then do
    let r1 ← litCI "DC".data s
    let r2 ← wsPlus r1
    let (cap, _, r3) ← digitsSpan r2
    let r4 ← wsPlus r3
    let r5 ← litCI abil r4
    let r6 ← wsPlus r5
    let r7 ← litCI "save".data r6
    match r7 with
    | [] => some (("DC ".data ++ cap ++ (' ' :: (target ++ " save".data))), 'e', r7)
    | c :: _ =>
      if isWordChar c then none
      else some (("DC ".data ++ cap ++ (' ' :: (target ++ " save".data))), 'e', r7)
  else none

/-- `convert_terminology` (lines 436-454), in dict order. -/
def convert_terminology (s : Cs) : Cs :=
  let s := runSubWB tryCRM s
  let s := runSubWB (tryWordM "Actions".data "Moments".data) s
  let s := runSubWB (tryWordM "opportunity attacks".data "reactions".data) s
  let s := runSubWB (tryWordM "half the damage".data "half as much damage".data) s
  let s := runSubWB (tryDCSave "CHA".data "WIL".data) s
  let s := runSubWB (tryDCSave "CON".data "FIT".data) s
  let s := runSubWB (tryDCSave "DEX".data "FIT".data) s
  let s := runSubWB (tryDCSave "STR".data "FIT".data) s
  let s := runSubWB (tryDCSave "INT".data "INS".data) s
  runSubWB (tryDCSave "WIS".data "INS".data) s

/-! ### `convert_hp` and the hit-point re-stamp -/

/-- `re.search(r'(\d+)', text)`: value of the first digit run. -/
def firstNat : Cs → Option ℕ
  | [] => none
  | c :: cs => if c.isDigit then some (digitsAux cs (digitVal c)).1 else firstNat cs

/-- `convert_hp` (lines 83-92): first digit run, scaled; 1 when the text
holds no digit. -/
def convert_hp (s : Cs) : ℕ :=
  match firstNat s with
  | some n => hpScale n
  | none => 1

/-- The hit-point re-stamp of `extract_monster_stat_block` (lines 509-514):
`<strong>Hit Points</strong>\s*(\d+)` (IGNORECASE) with the scaled value. -/
def tryRestamp (s : Cs) : Option (Cs × Cs) := do
  let r1 ← litCI "<strong>Hit Points</strong>".data s
  let (cap, _, r3) ← digitsSpan (wsStar r1)
  some (("<strong>Hit Points</strong> ".data ++ (toString (convert_hp cap)).data), r3)

/-- The BeautifulSoup parse → mutate → serialise round trip of
`convert_ability_scores_table` (lines 304-408), seen at the string level.
On markup containing no `figure` of class `monster-ability-scores` the
function only re-parses and re-serialises the text, which is the identity
on the plain-text and already-serialised inputs considered here; the
structural table rewrite itself is modelled separately at the row level
(`convert_table_rows` below). -/
def ability_table_stage (s : Cs) : Cs := s

/-- `convert_ability_scores` (lines 410-434): the table stage, then the
free-text replacements. -/
def convert_ability_scores (s : Cs) : Cs :=
  convert_ability_text (ability_table_stage s)

/-- Lines 494-514 of `extract_monster_stat_block`: the ordered ETF text
pipeline applied to the serialised stat-block markup. -/
def textPipeline (s : Cs) : Cs :=
  let s := convert_to_hit_to_defense_save_dc s
  let s := convert_damage_to_hits s
  let s := convert_ability_scores s
  let s := convert_terminology s
  runSub tryRestamp s

def strPipeline (s : String) : String := ⟨textPipeline s.data⟩

/-! ## `parse_cr_value` (lines 16-39) -/

def digitsVal (l : Cs) : ℕ := l.foldl (fun a c => a * 10 + digitVal c) 0

/-- Python `float()` on a sign-free plain-decimal literal: `5`, `5.`,
`.25`, `5.25`, valued exactly (as `mkRat (ip * 10^k + fp) (10^k)` for the
literal `ip.fp`).  Python's float syntax also accepts the textual forms
`nan`, `inf`/`infinity`, exponents (`1e5`) and digit underscores (`1_0`);
those contain letters or underscores, are NOT modelled here (this model
returns `none`, hence the 0.0 default, where the program returns `nan`,
`inf` or a value), so every universal theorem about `parse_cr_value`
restricts its scope to letter-free, underscore-free ASCII numeric text,
where this grammar matches `float()` exactly.  The binary representation
error of a decimal literal does not affect sign or zeroness, so the sign
statements and the exactly representable fraction values (1/2, 1/4, 1/8)
transfer to the program. -/
def pyFloatUnsigned (s : Cs) : Option ℚ :=
  let ip := s.takeWhile Char.isDigit
  let r := s.dropWhile Char.isDigit
  match r with
  | [] => if ip.isEmpty then none else some (mkRat (digitsVal ip) 1)
  | '.' :: r2 =>
    let fp := r2.takeWhile Char.isDigit
    let r3 := r2.dropWhile Char.isDigit
    if r3.isEmpty && !(ip.isEmpty && fp.isEmpty) then
      some (mkRat (digitsVal ip * 10 ^ fp.length + digitsVal fp) (10 ^ fp.length))
    else none
  | _ => none

/-- Python `float()` after stripping: optional sign, then the unsigned
form. -/
def pyFloat (s : Cs) : Option ℚ :=
  match s with
  | [] => pyFloatUnsigned []
  | c :: r =>
    if c = '+' then pyFloatUnsigned r
    else if c = '-' then (pyFloatUnsigned r).map Neg.neg
    else pyFloatUnsigned (c :: r)

/-- `cr_text.split('/')`. -/
def splitSlash : Cs → List Cs
  | [] => [[]]
  | c :: cs =>
    if c == '/' then [] :: splitSlash cs
    else
      match splitSlash cs with
      | [] => [[c]]
      | p :: ps => (c :: p) :: ps

/-- `re.sub(r'^CR\s*', '', ..., flags=re.IGNORECASE)`: the pattern is
anchored, so at most the one leading occurrence is removed. -/
def stripCRMark (s : Cs) : Cs :=
  match litCI "CR".data s with
  | some r => wsStar r
  | none => s

/-- Exact rational division of two parsed float values (`num / den` in the
source).  Written with `Rat.divInt` on numerators/denominators so that it
evaluates definitionally; `ratDivModel_eq` proves it equal to `n / d`
whenever `d ≠ 0`. -/
def ratDivModel (n d : ℚ) : ℚ := Rat.divInt (n.num * d.den) (n.den * d.num)

/-- `float(t.strip())` with the surrounding `try/except` returning 0.0. -/
def decimalOrZero (t : Cs) : ℚ := (pyFloat (pyStripChars t)).getD 0

/-- `cr_text.strip()` followed by the anchored `CR` marker removal
(lines 22). -/
def crStripped (crText : String) : Cs := stripCRMark (pyStripChars crText.data)

/-- `parse_cr_value` (lines 16-39).  The bare `except:` clauses catch
every error, including the `ZeroDivisionError` of `num / den` when the
denominator parses to 0.0, so the function is total and returns 0.0 on
every failure path. -/
def parse_cr_value (crText : String) : ℚ :=
  if crText.isEmpty then 0
  else if (crStripped crText).contains '/' then
    match splitSlash (crStripped crText) with
    | [p1, p2] =>
      match pyFloat (pyStripChars p1), pyFloat (pyStripChars p2) with
      | some n, some d => if d = 0 then 0 else ratDivModel n d
      | _, _ => 0
    | _ => decimalOrZero (crStripped crText)
  else decimalOrZero (crStripped crText)

/-! ## Markup tree and the structural extractor (lines 456-548)

The BeautifulSoup document is embedded as a rooted ordered tree of
elements (tag, class list, children) and text nodes; `find` is the
document-order (preorder) first match over the node itself and its
descendants, and `find(string=pattern)` is the first text node whose
string the pattern `search`es successfully. -/

mutual
inductive HNode where
  | elem : String → List String → HForest → HNode
  | text : String → HNode
inductive HForest where
  | nil : HForest
  | cons : HNode → HForest → HForest
end

mutual
def findElem (p : String → List String → Bool) : HNode → Option HNode
  | .elem t cls ch => if p t cls then some (.elem t cls ch) else findElemF p ch
  | .text _ => none
def findElemF (p : String → List String → Bool) : HForest → Option HNode
  | .nil => none
  | .cons h tl =>
    match findElem p h with
    | some r => some r
    | none => findElemF p tl
end

mutual
def getText : HNode → String
  | .elem _ _ ch => getTextF ch
  | .text s => s
def getTextF : HForest → String
  | .nil => ""
  | .cons h tl => getText h ++ getTextF tl
end

mutual
def findStr (p : String → Bool) : HNode → Option String
  | .elem _ _ ch => findStrF p ch
  | .text s => if p s then some s else none
def findStrF (p : String → Bool) : HForest → Option String
  | .nil => none
  | .cons h tl =>
    match findStr p h with
    | some r => some r
    | none => findStrF p tl
end

mutual
def serialize : HNode → String
  | .elem t cls ch =>
    "<" ++ t ++ (if cls.isEmpty then "" else " class=\"" ++ String.intercalate " " cls ++ "\"")
      ++ ">" ++ serializeF ch ++ "</" ++ t ++ ">"
  | .text s => s
def serializeF : HForest → String
  | .nil => ""
  | .cons h tl => serialize h ++ serializeF tl
end

/-- `re.compile(r'CR\s+[\d/]+', re.IGNORECASE).search(s)` is truthy. -/
def crPatAt (s : Cs) : Bool :=
  match litCI "CR".data s with
  | some r1 =>
    match wsPlus r1 with
    | some r2 =>
      match r2 with
      | c :: _ => c.isDigit || c == '/'
      | [] => false
    | none => false
  | none => false

def crPatB : Cs → Bool
  | [] => false
  | c :: cs => crPatAt (c :: cs) || crPatB cs

/-- `re.compile(r'Hit Points\s+\d+', re.IGNORECASE).search(s)` is truthy. -/
def hpPatAt (s : Cs) : Bool :=
  match litCI "Hit Points".data s with
  | some r1 =>
    match wsPlus r1 with
    | some (c :: _) => c.isDigit
    | _ => false
  | none => false

def hpPatB : Cs → Bool
  | [] => false
  | c :: cs => hpPatAt (c :: cs) || hpPatB cs

/-- `re.compile(r'Armor Class\s+\d+', re.IGNORECASE).search(s)` is truthy. -/
def acPatAt (s : Cs) : Bool :=
  match litCI "Armor Class".data s with
  | some r1 =>
    match wsPlus r1 with
    | some (c :: _) => c.isDigit
    | _ => false
  | none => false

def acPatB : Cs → Bool
  | [] => false
  | c :: cs => acPatAt (c :: cs) || acPatB cs

/-- One extracted monster record (the dict of lines 519-527). -/
structure MonsterRecord where
  name : String
  cr : ℚ
  level : ℕ
  hp : ℕ
  ac : ℕ
  original_html : String
  etf_html : String
  deriving DecidableEq

/-- Lines 467-472: CR defaults to 0.0, otherwise the found string is
stripped and parsed. -/
def crLookup (a : HNode) : ℚ :=
  match findStr (fun s => crPatB s.data) a with
  | some t => parse_cr_value (String.mk (pyStripChars t.data))
  | none => 0

/-- Lines 474-479: HP defaults to 1, otherwise `convert_hp` of the found
(stripped) string. -/
def hpLookup (a : HNode) : ℕ :=
  match findStr (fun s => hpPatB s.data) a with
  | some t => convert_hp (pyStripChars t.data)
  | none => 1

/-- Lines 481-488: AC defaults to 10, otherwise the first digit run of the
found string. -/
def acLookup (a : HNode) : ℕ :=
  match findStr (fun s => acPatB s.data) a with
  | some t =>
    match firstNat (pyStripChars t.data) with
    | some n => n
    | none => 10
  | none => 10

/-- Line 491: `str(soup.find('div', class_='post-single-content'))`;
when the container is absent Python stringifies `None`. -/
def contentHtml (a : HNode) : String :=
  match findElem (fun t cls => t == "div" && cls.contains "post-single-content") a with
  | some n => serialize n
  | none => "None"

/-- `soup.find('h1', class_='title')`'s predicate (line 461). -/
def isTitleHeading (t : String) (cls : List String) : Bool :=
  t == "h1" && cls.contains "title"

/-- `extract_monster_stat_block` (lines 456-527): `None` exactly when no
`h1.title` heading exists; otherwise the record with the three independent
lookups, the level derived from CR, and the text pipeline applied to the
serialised content. -/
def extract_monster_stat_block (a : HNode) : Option MonsterRecord :=
  match findElem isTitleHeading a with
  | none => none
  | some nameEl =>
    some { name := String.mk (pyStripChars (getText nameEl).data)
         , cr := crLookup a
         , level := cr_to_level (crLookup a)
         , hp := hpLookup a
         , ac := acLookup a
         , original_html := contentHtml a
         , etf_html := strPipeline (contentHtml a) }

/-! ## `convert_ability_scores_table` row rewrite (lines 304-408)

The structural part is embedded at the row level: the list of stripped
header labels and the list of data-row cell texts, which is everything the
numeric rewrite reads and replaces.  `Option` models the uncaught Python
exceptions (`IndexError` from `cells[idx]`, `ValueError` from `int`). -/

def pyIntUnsigned (s : Cs) : Option ℤ :=
  if s.isEmpty then none
  else if s.all Char.isDigit then some (digitsVal s : ℤ)
  else none

/-- Python `int()` (which strips surrounding whitespace itself); `none`
models the `ValueError` it raises on malformed text. -/
def pyInt (s : Cs) : Option ℤ :=
  match pyStripChars s with
  | '+' :: r => pyIntUnsigned r
  | '-' :: r => (pyIntUnsigned r).map Neg.neg
  | t => pyIntUnsigned t

/-- `parse_modifier` (lines 348-357). -/
def parse_modifier (text : String) : Option ℤ :=
  match pyStripChars text.data with
  | [] => some 0
  | '+' :: rest => if rest.isEmpty then some 0 else pyInt rest
  | '-' :: rest => if rest.isEmpty then some 0 else pyInt ('-' :: rest)
  | t => pyInt t

/-- `format_modifier` (lines 385-388): explicit `+` for non-negatives. -/
def format_modifier (m : ℤ) : String :=
  if 0 ≤ m then "+" ++ toString m else toString m

/-- The per-table rewrite of `convert_ability_scores_table`
(lines 333-406): label lookup by uppercased header text, `continue`
(table untouched) when any of the six canonical labels is missing,
otherwise scores `2m + 10`, floored means (`//`), derived modifiers and
signed formatting replacing the header and data row. -/
def convert_table_rows (headers cells : List String) :
    Option (List String × List String) :=
  -- `h.upper() == lbl` (character-wise ASCII uppercasing)
  let idx (lbl : String) : Option ℕ :=
    headers.findIdx? (fun h => h.data.map Char.toUpper == lbl.data)
  -- `if None in [str_idx, dex_idx, con_idx, int_idx, wis_idx, cha_idx]: continue`
  if (idx "STR").isNone || (idx "DEX").isNone || (idx "CON").isNone ||
     (idx "INT").isNone || (idx "WIS").isNone || (idx "CHA").isNone then
    some (headers, cells)
  else do
    let si ← idx "STR"
    let di ← idx "DEX"
    let ci ← idx "CON"
    let ii ← idx "INT"
    let wi ← idx "WIS"
    let hi ← idx "CHA"
    let strMod ← (cells.get? si).bind parse_modifier
    let dexMod ← (cells.get? di).bind parse_modifier
    let conMod ← (cells.get? ci).bind parse_modifier
    let intMod ← (cells.get? ii).bind parse_modifier
    let wisMod ← (cells.get? wi).bind parse_modifier
    let chaMod ← (cells.get? hi).bind parse_modifier
    let strScore := modifier_to_score strMod
    let dexScore := modifier_to_score dexMod
    let conScore := modifier_to_score conMod
    let intScore := modifier_to_score intMod
    let wisScore := modifier_to_score wisMod
    let chaScore := modifier_to_score chaMod
    let fitnessScore := (strScore + dexScore + conScore).fdiv 3
    let insightScore := (intScore + wisScore).fdiv 2
    let willpowerScore := (wisScore + chaScore).fdiv 2
    let fitnessMod := score_to_modifier fitnessScore
    let insightMod := score_to_modifier insightScore
    let willpowerMod := score_to_modifier willpowerScore
    some (["FIT", "INS", "WIL"],
          [format_modifier fitnessMod, format_modifier insightMod,
           format_modifier willpowerMod])

/-- A concrete article: a titled heading, an unparseable challenge-rating
string (`"CR /"` matches the search pattern `CR\s+[\d/]+` but parses to
the 0.0 default), hit points, armor class, and a content container. -/
def c4Article : HNode :=
  .elem "article" []
    (.cons (.elem "h1" ["title"] (.cons (.text "Goblin") .nil))
      (.cons (.text "CR /")
        (.cons (.text "Hit Points 85")
          (.cons (.text "Armor Class 15")
            (.cons (.elem "div" ["post-single-content"]
              (.cons (.text "body text") .nil)) .nil)))))

/-- The record `extract_monster_stat_block` emits for `c4Article`. -/
def c4Record : MonsterRecord :=
  { name := "Goblin", cr := 0, level := 1, hp := 9, ac := 15,
    original_html := "<div class=\"post-single-content\">body text</div>",
    etf_html := "<div class=\"post-single-content\">body text</div>" }

/-- A concrete article with a titled heading but no hit-point text. -/
def c10Article : HNode :=
  .elem "article" []
    (.cons (.elem "h1" ["title"] (.cons (.text "Wisp") .nil))
      (.cons (.text "CR 1/4") .nil))

/-! ## Helper lemmas -/

/-- Python `//` (`Int.fdiv`) by a natural is the rational floor. -/
lemma fdiv_natCast_eq_floor (a : ℤ) (d : ℕ) : a.fdiv (d : ℤ) = ⌊(a : ℚ) / (d : ℚ)⌋ := by
  rw [Rat.floor_intCast_div_natCast, Int.fdiv_eq_ediv _ (by positivity)]

lemma pyRound_nonneg {q : ℚ} (hq : 0 ≤ q) : 0 ≤ pyRound q := by
  have h : 0 ≤ ⌊q⌋ := Int.floor_nonneg.2 hq
  unfold pyRound
  split_ifs <;> omega

/-- The integer implementation agrees with the rational description of
Python `round` on exact quotients. -/
lemma pyRoundDiv_eq (a : ℤ) (d : ℕ) (hd : 0 < d) :
    pyRoundDiv a (d : ℤ) = pyRound ((a : ℚ) / (d : ℚ)) := by
  have hdQ : (0 : ℚ) < (d : ℚ) := by exact_mod_cast hd
  have hfl : a.fdiv (d : ℤ) = ⌊(a : ℚ) / (d : ℚ)⌋ := fdiv_natCast_eq_floor a d
  have hfrac : (a : ℚ) / (d : ℚ) - (⌊(a : ℚ) / (d : ℚ)⌋ : ℚ)
      = ((a - (d : ℤ) * ⌊(a : ℚ) / (d : ℚ)⌋ : ℤ) : ℚ) / (d : ℚ) := by
    push_cast
    field_simp
  have hlt : ∀ r : ℤ, ((r : ℚ) / (d : ℚ) < 1 / 2) ↔ (2 * r < (d : ℤ)) := by
    intro r
    rw [div_lt_iff₀ hdQ]
    constructor
    · intro h
      have h2 : ((2 * r : ℤ) : ℚ) < ((d : ℤ) : ℚ) := by push_cast; linarith
      exact_mod_cast h2
    · intro h
      have h2 : ((2 * r : ℤ) : ℚ) < ((d : ℤ) : ℚ) := by exact_mod_cast h
      push_cast at h2
      linarith
  have hgt : ∀ r : ℤ, (1 / 2 < (r : ℚ) / (d : ℚ)) ↔ ((d : ℤ) < 2 * r) := by
    intro r
    rw [lt_div_iff₀ hdQ]
    constructor
    · intro h
      have h2 : (((d : ℤ)) : ℚ) < ((2 * r : ℤ) : ℚ) := by push_cast; linarith
      exact_mod_cast h2
    · intro h
      have h2 : (((d : ℤ)) : ℚ) < ((2 * r : ℤ) : ℚ) := by exact_mod_cast h
      push_cast at h2
      linarith
  unfold pyRound pyRoundDiv
  rw [hfl]
  simp only [hfrac, hlt, hgt]

lemma pyRoundDiv_six (a : ℤ) : pyRoundDiv a 6 = pyRound ((a : ℚ) / 6) := by
  have h := pyRoundDiv_eq a 6 (by norm_num)
  simpa using h

/-- Ceiling division by 10 equals the `(n + 9) / 10` of the source. -/
lemma ceil_div_ten (n : ℕ) : ⌈(n : ℚ) / 10⌉ = ((n + 9) / 10 : ℕ) := by
  set m := (n + 9) / 10 with hm
  have hm1 : 10 * m ≤ n + 9 := by omega
  have hm2 : n ≤ 10 * m := by omega
  have key : 10 * (m : ℚ) ≤ (n : ℚ) + 9 := by exact_mod_cast hm1
  have key2 : (n : ℚ) ≤ 10 * (m : ℚ) := by exact_mod_cast hm2
  rw [Int.ceil_eq_iff]
  push_cast
  constructor
  · linarith
  · linarith

/-- `ratDivModel` is genuine division of the two rationals. -/
lemma ratDivModel_eq (n d : ℚ) (hd : d ≠ 0) : ratDivModel n d = n / d := by
  have h1 : ((n.den : ℚ)) ≠ 0 := by exact_mod_cast n.den_nz
  have h2 : ((d.den : ℚ)) ≠ 0 := by exact_mod_cast d.den_nz
  have hn : (n.num : ℚ) = n * n.den := by
    have h := Rat.num_div_den n
    rw [div_eq_iff h1] at h
    exact h
  have hdn : (d.num : ℚ) = d * d.den := by
    have h := Rat.num_div_den d
    rw [div_eq_iff h2] at h
    exact h
  unfold ratDivModel
  rw [Rat.divInt_eq_div]
  push_cast
  rw [hn, hdn]
  rw [div_eq_div_iff (by positivity) hd]
  ring

lemma litCI_sublist {p s r : Cs} (h : litCI p s = some r) : r.Sublist s := by
  induction p generalizing s with
  | nil =>
    unfold litCI at h
    cases h
    exact List.Sublist.refl _
  | cons a ps ih =>
    cases s with
    | nil => simp [litCI] at h
    | cons c cs =>
      unfold litCI at h
      by_cases hc : lowEq a c
      · simp only [hc, if_true] at h
        exact (ih h).cons c
      · simp [hc] at h

lemma mem_wsStar {c : Char} {s : Cs} (h : c ∈ wsStar s) : c ∈ s :=
  (List.dropWhile_sublist _).mem h

lemma mem_pyStripChars {c : Char} {s : Cs} (h : c ∈ pyStripChars s) : c ∈ s := by
  unfold pyStripChars at h
  rw [List.mem_reverse] at h
  have h2 := (List.dropWhile_sublist _).mem h
  rw [List.mem_reverse] at h2
  exact (List.dropWhile_sublist _).mem h2

lemma mem_stripCRMark {c : Char} {s : Cs} (h : c ∈ stripCRMark s) : c ∈ s := by
  unfold stripCRMark at h
  cases hl : litCI "CR".data s with
  | none => rw [hl] at h; exact h
  | some r =>
    rw [hl] at h
    exact (litCI_sublist hl).mem (mem_wsStar h)

lemma splitSlash_mem : ∀ {s : Cs} {p : Cs} {c : Char},
    p ∈ splitSlash s → c ∈ p → c ∈ s := by
  intro s
  induction s with
  | nil =>
    intro p c hp hc
    simp [splitSlash] at hp
    subst hp
    simp at hc
  | cons a as ih =>
    intro p c hp hc
    unfold splitSlash at hp
    by_cases ha : a == '/'
    · simp only [ha, if_true] at hp
      rcases List.mem_cons.mp hp with h | h
      · subst h; simp at hc
      · exact List.mem_cons_of_mem _ (ih h hc)
    · simp only [ha, if_false] at hp
      cases hs : splitSlash as with
      | nil =>
        rw [hs] at hp
        simp at hp
        subst hp
        simp at hc
        subst hc
        exact List.mem_cons_self _ _
      | cons q qs =>
        rw [hs] at hp
        rcases List.mem_cons.mp hp with h | h
        · subst h
          rcases List.mem_cons.mp hc with h' | h'
          · subst h'; exact List.mem_cons_self _ _
          · exact List.mem_cons_of_mem _ (ih (hs ▸ List.mem_cons_self q qs) h')
        · exact List.mem_cons_of_mem _ (ih (hs ▸ List.mem_cons_of_mem q h) hc)

lemma pyFloatUnsigned_nonneg {s : Cs} {q : ℚ} (h : pyFloatUnsigned s = some q) : 0 ≤ q := by
  unfold pyFloatUnsigned at h
  dsimp only at h
  split at h
  · split at h
    · exact absurd h (by simp)
    · cases h
      exact Rat.mkRat_nonneg (by positivity) _
  · split at h
    · cases h
      exact Rat.mkRat_nonneg (by positivity) _
    · exact absurd h (by simp)
  · exact absurd h (by simp)

lemma pyFloat_nonneg {s : Cs} {q : ℚ} (hm : '-' ∉ s) (h : pyFloat s = some q) : 0 ≤ q := by
  cases s with
  | nil =>
    unfold pyFloat at h
    exact pyFloatUnsigned_nonneg h
  | cons c r =>
    unfold pyFloat at h
    dsimp only at h
    by_cases hplus : c = '+'
    · rw [if_pos hplus] at h
      exact pyFloatUnsigned_nonneg h
    · rw [if_neg hplus] at h
      by_cases hminus : c = '-'
      · exact absurd (hminus ▸ List.mem_cons_self _ _) hm
      · rw [if_neg hminus] at h
        exact pyFloatUnsigned_nonneg h

lemma decimalOrZero_nonneg {t : Cs} (hm : '-' ∉ t) : 0 ≤ decimalOrZero t := by
  unfold decimalOrZero
  cases hf : pyFloat (pyStripChars t) with
  | none => simp
  | some q =>
    simp only [Option.getD_some]
    exact pyFloat_nonneg (fun hc => hm (mem_pyStripChars hc)) hf

lemma firstNat_none {s : Cs} (h : ∀ c ∈ s, c.isDigit = false) : firstNat s = none := by
  induction s with
  | nil => rfl
  | cons c cs ih =>
    unfold firstNat
    rw [h c (List.mem_cons_self _ _)]
    simp only [Bool.false_eq_true, if_false]
    exact ih fun x hx => h x (List.mem_cons_of_mem _ hx)

/-! ## Claim theorems -/

lemma cr_level_band1 (cr : ℚ) (h : cr ≤ 1) : cr_to_level cr = 1 := by
  unfold cr_to_level
  rcases le_or_lt cr 0 with h0 | h0
  · rw [if_pos h0]
  · rw [if_neg (by linarith), if_pos h]

lemma cr_level_band2 (cr : ℚ) (h1 : 1 < cr) (h2 : cr ≤ 3) : cr_to_level cr = 2 := by
  unfold cr_to_level
  rw [if_neg (by linarith), if_neg (by linarith), if_pos h2]

lemma cr_level_band3 (cr : ℚ) (h1 : 3 < cr) (h2 : cr ≤ 5) : cr_to_level cr = 3 := by
  unfold cr_to_level
  rw [if_neg (by linarith), if_neg (by linarith), if_neg (by linarith), if_pos h2]

lemma cr_level_band4 (cr : ℚ) (h1 : 5 < cr) (h2 : cr ≤ 7) : cr_to_level cr = 4 := by
  unfold cr_to_level
  rw [if_neg (by linarith), if_neg (by linarith), if_neg (by linarith),
    if_neg (by linarith), if_pos h2]

lemma cr_level_band5 (cr : ℚ) (h1 : 7 < cr) (h2 : cr ≤ 9) : cr_to_level cr = 5 := by
  unfold cr_to_level
  rw [if_neg (by linarith), if_neg (by linarith), if_neg (by linarith),
    if_neg (by linarith), if_neg (by linarith), if_pos h2]

lemma cr_level_band6 (cr : ℚ) (h1 : 9 < cr) (h2 : cr ≤ 11) : cr_to_level cr = 6 := by
  unfold cr_to_level
  rw [if_neg (by linarith), if_neg (by linarith), if_neg (by linarith),
    if_neg (by linarith), if_neg (by linarith), if_neg (by linarith), if_pos h2]

lemma cr_level_band7 (cr : ℚ) (h1 : 11 < cr) (h2 : cr ≤ 13) : cr_to_level cr = 7 := by
  unfold cr_to_level
  rw [if_neg (by linarith), if_neg (by linarith), if_neg (by linarith),
    if_neg (by linarith), if_neg (by linarith), if_neg (by linarith),
    if_neg (by linarith), if_pos h2]

lemma cr_level_band8 (cr : ℚ) (h1 : 13 < cr) (h2 : cr ≤ 15) : cr_to_level cr = 8 := by
  unfold cr_to_level
  rw [if_neg (by linarith), if_neg (by linarith), if_neg (by linarith),
    if_neg (by linarith), if_neg (by linarith), if_neg (by linarith),
    if_neg (by linarith), if_neg (by linarith), if_pos h2]

lemma cr_level_band9 (cr : ℚ) (h1 : 15 < cr) (h2 : cr ≤ 17) : cr_to_level cr = 9 := by
  unfold cr_to_level
  rw [if_neg (by linarith), if_neg (by linarith), if_neg (by linarith),
    if_neg (by linarith), if_neg (by linarith), if_neg (by linarith),
    if_neg (by linarith), if_neg (by linarith), if_neg (by linarith), if_pos h2]

lemma cr_level_band10 (cr : ℚ) (h1 : 17 < cr) : cr_to_level cr = 10 := by
  unfold cr_to_level
  rw [if_neg (by linarith), if_neg (by linarith), if_neg (by linarith),
    if_neg (by linarith), if_neg (by linarith), if_neg (by linarith),
    if_neg (by linarith), if_neg (by linarith), if_neg (by linarith),
    if_neg (by linarith)]

lemma cr_level_range (cr : ℚ) : 1 ≤ cr_to_level cr ∧ cr_to_level cr ≤ 10 := by
  unfold cr_to_level
  split_ifs <;> omega

lemma cr_level_ge10 {cr : ℚ} (h : 17 < cr) : 10 ≤ cr_to_level cr :=
  (cr_level_band10 cr h).ge

lemma cr_level_ge9 {cr : ℚ} (h : 15 < cr) : 9 ≤ cr_to_level cr := by
  rcases le_or_lt cr 17 with h' | h'
  · exact (cr_level_band9 cr h h').ge
  · exact le_trans (by norm_num) (cr_level_ge10 h')

lemma cr_level_ge8 {cr : ℚ} (h : 13 < cr) : 8 ≤ cr_to_level cr := by
  rcases le_or_lt cr 15 with h' | h'
  · exact (cr_level_band8 cr h h').ge
  · exact le_trans (by norm_num) (cr_level_ge9 h')

lemma cr_level_ge7 {cr : ℚ} (h : 11 < cr) : 7 ≤ cr_to_level cr := by
  rcases le_or_lt cr 13 with h' | h'
  · exact (cr_level_band7 cr h h').ge
  · exact le_trans (by norm_num) (cr_level_ge8 h')

lemma cr_level_ge6 {cr : ℚ} (h : 9 < cr) : 6 ≤ cr_to_level cr := by
  rcases le_or_lt cr 11 with h' | h'
  · exact (cr_level_band6 cr h h').ge
  · exact le_trans (by norm_num) (cr_level_ge7 h')

lemma cr_level_ge5 {cr : ℚ} (h : 7 < cr) : 5 ≤ cr_to_level cr := by
  rcases le_or_lt cr 9 with h' | h'
  · exact (cr_level_band5 cr h h').ge
  · exact le_trans (by norm_num) (cr_level_ge6 h')

lemma cr_level_ge4 {cr : ℚ} (h : 5 < cr) : 4 ≤ cr_to_level cr := by
  rcases le_or_lt cr 7 with h' | h'
  · exact (cr_level_band4 cr h h').ge
  · exact le_trans (by norm_num) (cr_level_ge5 h')

lemma cr_level_ge3 {cr : ℚ} (h : 3 < cr) : 3 ≤ cr_to_level cr := by
  rcases le_or_lt cr 5 with h' | h'
  · exact (cr_level_band3 cr h h').ge
  · exact le_trans (by norm_num) (cr_level_ge4 h')

lemma cr_level_ge2 {cr : ℚ} (h : 1 < cr) : 2 ≤ cr_to_level cr := by
  rcases le_or_lt cr 3 with h' | h'
  · exact (cr_level_band2 cr h h').ge
  · exact le_trans (by norm_num) (cr_level_ge3 h')

lemma cr_level_mono {a b : ℚ} (hab : a ≤ b) : cr_to_level a ≤ cr_to_level b := by
  rcases le_or_lt a 1 with h | h
  · rw [cr_level_band1 a h]
    exact (cr_level_range b).1
  rcases le_or_lt a 3 with h3 | h3
  · rw [cr_level_band2 a h h3]
    exact cr_level_ge2 (lt_of_lt_of_le h hab)
  rcases le_or_lt a 5 with h5 | h5
  · rw [cr_level_band3 a h3 h5]
    exact cr_level_ge3 (lt_of_lt_of_le h3 hab)
  rcases le_or_lt a 7 with h7 | h7
  · rw [cr_level_band4 a h5 h7]
    exact cr_level_ge4 (lt_of_lt_of_le h5 hab)
  rcases le_or_lt a 9 with h9 | h9
  · rw [cr_level_band5 a h7 h9]
    exact cr_level_ge5 (lt_of_lt_of_le h7 hab)
  rcases le_or_lt a 11 with h11 | h11
  · rw [cr_level_band6 a h9 h11]
    exact cr_level_ge6 (lt_of_lt_of_le h9 hab)
  rcases le_or_lt a 13 with h13 | h13
  · rw [cr_level_band7 a h11 h13]
    exact cr_level_ge7 (lt_of_lt_of_le h11 hab)
  rcases le_or_lt a 15 with h15 | h15
  · rw [cr_level_band8 a h13 h15]
    exact cr_level_ge8 (lt_of_lt_of_le h13 hab)
  rcases le_or_lt a 17 with h17 | h17
  · rw [cr_level_band9 a h15 h17]
    exact cr_level_ge9 (lt_of_lt_of_le h15 hab)
  · rw [cr_level_band10 a h17]
    exact cr_level_ge10 (lt_of_lt_of_le h17 hab)

/-- C3: `cr_to_level` is a total monotone non-decreasing step function:
cr ≤ 0 or cr ≤ 1 gives 1, then (with the earlier guards excluded) cr ≤ 3
gives 2, cr ≤ 5 gives 3, cr ≤ 7 gives 4, cr ≤ 9 gives 5, cr ≤ 11 gives 6,
cr ≤ 13 gives 7, cr ≤ 15 gives 8, cr ≤ 17 gives 9, and anything larger
gives 10; the result always lies in [1, 10], and
`cr_to_level 0 = 1`, `cr_to_level 1 = 1`, `cr_to_level 3 = 2`,
`cr_to_level 30 = 10`. -/
theorem c3_cr_to_level_step :
    (∀ cr : ℚ, cr ≤ 0 → cr_to_level cr = 1) ∧
    (∀ cr : ℚ, cr ≤ 1 → cr_to_level cr = 1) ∧
    (∀ cr : ℚ, 1 < cr → cr ≤ 3 → cr_to_level cr = 2) ∧
    (∀ cr : ℚ, 3 < cr → cr ≤ 5 → cr_to_level cr = 3) ∧
    (∀ cr : ℚ, 5 < cr → cr ≤ 7 → cr_to_level cr = 4) ∧
    (∀ cr : ℚ, 7 < cr → cr ≤ 9 → cr_to_level cr = 5) ∧
    (∀ cr : ℚ, 9 < cr → cr ≤ 11 → cr_to_level cr = 6) ∧
    (∀ cr : ℚ, 11 < cr → cr ≤ 13 → cr_to_level cr = 7) ∧
    (∀ cr : ℚ, 13 < cr → cr ≤ 15 → cr_to_level cr = 8) ∧
    (∀ cr : ℚ, 15 < cr → cr ≤ 17 → cr_to_level cr = 9) ∧
    (∀ cr : ℚ, 17 < cr → cr_to_level cr = 10) ∧
    (∀ a b : ℚ, a ≤ b → cr_to_level a ≤ cr_to_level b) ∧
    (∀ cr : ℚ, 1 ≤ cr_to_level cr ∧ cr_to_level cr ≤ 10) ∧
    cr_to_level 0 = 1 ∧ cr_to_level 1 = 1 ∧ cr_to_level 3 = 2 ∧ cr_to_level 30 = 10 := by
  exact ⟨fun cr h => cr_level_band1 cr (h.trans (by norm_num)),
    cr_level_band1, cr_level_band2, cr_level_band3, cr_level_band4, cr_level_band5,
    cr_level_band6, cr_level_band7, cr_level_band8, cr_level_band9, cr_level_band10,
    fun _ _ hab => cr_level_mono hab, cr_level_range,
    by decide, by decide, by decide, by decide⟩

/-- C3 witness: the step theorem applied at concrete challenge ratings. -/
theorem c3_cr_to_level_step_witness :
    cr_to_level (1 / 2 : ℚ) = 1 ∧ cr_to_level 4 = 3 ∧ cr_to_level 18 = 10 ∧
    cr_to_level 2 ≤ cr_to_level 16 := by
  obtain ⟨_, h1, _, h3, _, _, _, _, _, _, h10, hmono, _, _⟩ := c3_cr_to_level_step
  exact ⟨h1 _ (by norm_num), h3 _ (by norm_num) (by norm_num), h10 _ (by norm_num),
    hmono 2 16 (by norm_num)⟩

/-- C7: the hit-point scaling (`convert_hp`'s numeric core) equals
`max 1 ⌈n / 10⌉` for every natural `n`, and maps 85 ↦ 9, 9 ↦ 1, 1 ↦ 1,
10 ↦ 1 (and the full text-level `convert_hp` sends "Hit Points 85" to 9). -/
theorem c7_hp_scaling :
    (∀ n : ℕ, (hpScale n : ℤ) = max 1 ⌈(n : ℚ) / 10⌉) ∧
    hpScale 85 = 9 ∧ hpScale 9 = 1 ∧ hpScale 1 = 1 ∧ hpScale 10 = 1 ∧
    convert_hp "Hit Points 85".data = 9 := by
  refine ⟨fun n => ?_, by decide, by decide, by decide, by decide, by decide⟩
  rw [ceil_div_ten]
  unfold hpScale
  push_cast
  rfl

/-- C5: the ability-table rewrite converts modifier `m` to score
`2 * m + 10`, takes floored means (`//` is the rational floor), derives
composite modifiers as `⌊(score - 10) / 2⌋`, formats non-negative
modifiers with an explicit plus sign, and on the source row
STR +2, DEX +1, CON +3, INT +0, WIS +1, CHA -1 displays `+2, +0, +0`. -/
theorem c5_ability_composite :
    (∀ m : ℤ, modifier_to_score m = 2 * m + 10) ∧
    (∀ x : ℤ, x.fdiv 3 = ⌊(x : ℚ) / 3⌋) ∧
    (∀ x : ℤ, x.fdiv 2 = ⌊(x : ℚ) / 2⌋) ∧
    (∀ v : ℤ, score_to_modifier v = ⌊((v : ℚ) - 10) / 2⌋) ∧
    (∀ m : ℤ, 0 ≤ m → format_modifier m = "+" ++ toString m) ∧
    convert_table_rows ["STR", "DEX", "CON", "INT", "WIS", "CHA"]
        ["+2", "+1", "+3", "+0", "+1", "-1"]
      = some (["FIT", "INS", "WIL"], ["+2", "+0", "+0"]) := by
  refine ⟨fun m => by unfold modifier_to_score; ring, fun x => ?_, fun x => ?_,
    fun v => ?_, fun m hm => ?_, by decide⟩
  · rw [show ((3 : ℤ)) = ((3 : ℕ) : ℤ) by norm_num, fdiv_natCast_eq_floor]
    norm_num
  · rw [show ((2 : ℤ)) = ((2 : ℕ) : ℤ) by norm_num, fdiv_natCast_eq_floor]
    norm_num
  · unfold score_to_modifier
    rw [show ((2 : ℤ)) = ((2 : ℕ) : ℤ) by norm_num, fdiv_natCast_eq_floor]
    congr 1
    push_cast
    ring
  · unfold format_modifier
    rw [if_pos hm]

/-- C5 witness: the composite theorem applied at concrete values. -/
theorem c5_ability_composite_witness :
    format_modifier 2 = "+2" ∧ (16 : ℤ).fdiv 3 = ⌊(16 : ℚ) / 3⌋ := by
  obtain ⟨_, hdiv3, _, _, hfmt, _⟩ := c5_ability_composite
  refine ⟨?_, hdiv3 16⟩
  rw [hfmt 2 (by norm_num)]
  rfl

/-- C9: if any of the six canonical labels is missing from the header row
(up to the uppercasing lookup of the source), the ability-table rewrite
returns the table completely unchanged. -/
theorem c9_missing_label_untouched :
    ∀ (headers cells : List String) (lbl : String),
      lbl ∈ ["STR", "DEX", "CON", "INT", "WIS", "CHA"] →
      (∀ h ∈ headers, ¬ h.data.map Char.toUpper = lbl.data) →
      convert_table_rows headers cells = some (headers, cells) := by
  intro headers cells lbl hmem hmiss
  have key : headers.findIdx? (fun h => h.data.map Char.toUpper == lbl.data) = none := by
    rw [List.findIdx?_eq_none_iff]
    intro x hx
    simpa using hmiss x hx
  fin_cases hmem <;> simp [convert_table_rows, key]

/-- C9 witness: a header row lacking STR is returned untouched. -/
theorem c9_missing_label_untouched_witness :
    convert_table_rows ["DEX", "CON", "INT", "WIS", "CHA"] ["+1", "+3", "+0", "+1", "-1"]
      = some (["DEX", "CON", "INT", "WIS", "CHA"], ["+1", "+3", "+0", "+1", "-1"]) :=
  c9_missing_label_untouched _ _ "STR" (by decide) (by decide)

/-- C2: on every dice expression whose anchored dice match yields
`N` dice of size `Y`, with `N·Y` and `B` inside the `< 2^53` regime where
the program's IEEE-double `round(…/6)` coincides with exact rational
banker's rounding (see `pyRound`; every stat-block dice clause lies far
inside it), `calculate_hits` computes `max(1, round(N·Y/6))`, adding
`round(B/6)` exactly when the bonus `B` is positive; and the damage
conversion rewrites `"Hit: 16 (2d10 + 5) piercing damage"` to
`"Hit: 4 hits of piercing damage"`. -/
theorem c2_damage_hits_formula :
    (∀ (diceExpr : Cs) (n y : ℕ) (b : ℤ),
        matchDiceAnchored (pyStripChars diceExpr) = some (n, y) →
        n * y < 2 ^ 53 →
        b < 2 ^ 53 →
        calculate_hits diceExpr b
          = max 1 (pyRound (((n * y : ℕ) : ℚ) / 6))
            + (if 0 < b then pyRound ((b : ℚ) / 6) else 0)) ∧
    String.mk (convert_damage_to_hits "Hit: 16 (2d10 + 5) piercing damage".data)
      = "Hit: 4 hits of piercing damage" := by
  constructor
  · intro diceExpr n y b h _hny _hb53
    unfold calculate_hits
    rw [h]
    dsimp only
    have hcast : ((((n * y : ℕ) : ℤ)) : ℚ) = (((n * y : ℕ)) : ℚ) := by push_cast; ring
    have e1 : pyRoundDiv ((n * y : ℕ) : ℤ) 6 = pyRound (((n * y : ℕ) : ℚ) / 6) := by
      rw [pyRoundDiv_six, hcast]
    rcases lt_or_le 0 b with hb | hb
    · rw [if_pos hb, if_pos hb]
      have e2 : pyRoundDiv b 6 = pyRound ((b : ℚ) / 6) := pyRoundDiv_six b
      rw [e1, e2]
      have hR : 0 ≤ pyRound ((b : ℚ) / 6) := by
        apply pyRound_nonneg
        have : (0 : ℚ) ≤ (b : ℚ) := by exact_mod_cast hb.le
        positivity
      omega
    · rw [if_neg (not_lt.2 hb), if_neg (not_lt.2 hb), e1, add_zero]
      omega
  · decide

/-- C2 witness: the formula applied to `2d10` with bonus 5 gives 4 hits. -/
theorem c2_damage_hits_formula_witness :
    calculate_hits "2d10".data 5 = 4 := by
  have h := c2_damage_hits_formula.1 "2d10".data 2 10 5 (by rfl) (by norm_num) (by norm_num)
  rw [h]
  norm_num [pyRound]

/-- C1 (code bug): as invoked by `extract_monster_stat_block`, the
attack-to-DC pass consumes the `Melee Weapon Attack` marker before
`convert_weapon_damage` looks for it, so on the spec's own example the
pipeline emits `Defense Save DC 16` but `Hit: 2 hits of slashing damage`
instead of the claimed `Hit: 1 hit of slashing damage`; running
`convert_weapon_damage` on the original text (the order the docstrings
describe) does produce the claimed 1-hit clause. -/
theorem c1_weapon_override_lost :
    strPipeline "Melee Weapon Attack: +5 to hit ... Hit: 8 (1d8+4) slashing damage"
      = "Defense Save DC 16 ... Hit: 2 hits of slashing damage" ∧
    ("Defense Save DC 16".data <:+:
      (strPipeline "Melee Weapon Attack: +5 to hit ... Hit: 8 (1d8+4) slashing damage").data) ∧
    ¬ ("Hit: 1 hit of slashing damage".data <:+:
      (strPipeline "Melee Weapon Attack: +5 to hit ... Hit: 8 (1d8+4) slashing damage").data) ∧
    ("Hit: 1 hit of slashing damage".data <:+:
      convert_weapon_damage
        "Melee Weapon Attack: +5 to hit ... Hit: 8 (1d8+4) slashing damage".data) :=
  ⟨by decide, by decide, by decide, by decide⟩

/-- C6 counterexample: the pipeline is not idempotent.  A damage-type
capture may itself contain dice text, which the replacement re-emits: one
pass leaves the dice clause `(1d4) x damage` in the output, and a second
pass rewrites it, so the second application is not a no-op. -/
theorem c6_idempotence_cex :
    strPipeline "(2d6) (1d4) x damage" = "(2 hits of (1d4) x damage)" ∧
    ("(1d4) x damage".data <:+: (strPipeline "(2d6) (1d4) x damage").data) ∧
    strPipeline (strPipeline "(2d6) (1d4) x damage")
      = "(2 hits of (1 hit of x damage))" ∧
    strPipeline (strPipeline "(2d6) (1d4) x damage") ≠ strPipeline "(2d6) (1d4) x damage" :=
  ⟨by decide, by decide, by decide, by decide⟩

/-- C6 amended: on the spec's own example clauses (whose damage types
carry no dice text) one pass does reach a literal fixed point — a second
application of the full pipeline changes nothing. -/
theorem c6_idempotence_amended :
    strPipeline (strPipeline "Melee Weapon Attack: +5 to hit ... Hit: 8 (1d8+4) slashing damage")
      = strPipeline "Melee Weapon Attack: +5 to hit ... Hit: 8 (1d8+4) slashing damage" ∧
    strPipeline (strPipeline "Hit: 16 (2d10 + 5) piercing damage")
      = strPipeline "Hit: 16 (2d10 + 5) piercing damage" :=
  ⟨by decide, by decide⟩

/-- C4: extraction returns no record exactly when the `h1.title` heading
is absent; when a record is emitted its CR/HP/AC fields are the three
independent lookups, its level is derived from the CR, the text pipeline
ran over the serialised content, and an unparseable (default-0) CR gives
`challengeRating = 0` and `level = 1`. -/
theorem c4_extract_name_fatal :
    ∀ a : HNode,
      (extract_monster_stat_block a = none ↔ findElem isTitleHeading a = none) ∧
      (∀ r, extract_monster_stat_block a = some r →
        r.cr = crLookup a ∧ r.level = cr_to_level (crLookup a) ∧
        r.hp = hpLookup a ∧ r.ac = acLookup a ∧
        r.etf_html = strPipeline (contentHtml a) ∧
        (crLookup a = 0 → r.cr = 0 ∧ r.level = 1)) := by
  intro a
  constructor
  · unfold extract_monster_stat_block
    cases h : findElem isTitleHeading a with
    | none => simp
    | some el => simp
  · intro r hr
    unfold extract_monster_stat_block at hr
    cases h : findElem isTitleHeading a with
    | none =>
      rw [h] at hr
      exact absurd hr (by simp)
    | some el =>
      rw [h] at hr
      rw [Option.some.injEq] at hr
      subst hr
      refine ⟨rfl, rfl, rfl, rfl, rfl, fun hcr => ⟨hcr, ?_⟩⟩
      show cr_to_level (crLookup a) = 1
      rw [hcr]
      decide

/-- C4 witness: the concrete article with a name and an unparseable CR is
extracted into a record with CR 0, level 1, and the HP/AC lookups
applied. -/
theorem c4_extract_name_fatal_witness :
    crLookup c4Article = 0 ∧
    extract_monster_stat_block c4Article = some c4Record ∧
    c4Record.cr = 0 ∧ c4Record.level = 1 ∧ c4Record.hp = 9 ∧ c4Record.ac = 15 := by
  have hx : extract_monster_stat_block c4Article = some c4Record := by decide
  have hcr : crLookup c4Article = 0 := by decide
  obtain ⟨h1, h2, h3, h4, h5, h6⟩ := (c4_extract_name_fatal c4Article).2 c4Record hx
  refine ⟨hcr, hx, (h6 hcr).1, (h6 hcr).2, ?_, ?_⟩
  · rw [h3]
    decide
  · rw [h4]
    decide

/-- C10: an article with a heading name but no text matching the
hit-points pattern still extracts successfully, and the record's
hit-point field is exactly 1; moreover `convert_hp` returns 1 on any text
containing no digit. -/
theorem c10_missing_hp_defaults_one :
    (∀ a : HNode, (findElem isTitleHeading a).isSome = true →
      findStr (fun s => hpPatB s.data) a = none →
      ∃ r, extract_monster_stat_block a = some r ∧ r.hp = 1) ∧
    (∀ s : Cs, (∀ c ∈ s, c.isDigit = false) → convert_hp s = 1) := by
  constructor
  · intro a h1 h2
    unfold extract_monster_stat_block
    cases h : findElem isTitleHeading a with
    | none => rw [h] at h1; exact absurd h1 (by simp)
    | some el =>
      refine ⟨_, rfl, ?_⟩
      show hpLookup a = 1
      unfold hpLookup
      rw [h2]
  · intro s h
    unfold convert_hp
    rw [firstNat_none h]

/-- C10 witness: the concrete article with no hit-point text yields a
record with hit points 1, and `convert_hp` of a digit-free string is 1. -/
theorem c10_missing_hp_defaults_one_witness :
    ((extract_monster_stat_block c10Article).map MonsterRecord.hp) = some 1 ∧
    convert_hp "no digits here".data = 1 := by
  obtain ⟨r, hr, hhp⟩ := c10_missing_hp_defaults_one.1 c10Article (by decide) (by decide)
  constructor
  · rw [hr, Option.map_some', hhp]
  · exact c10_missing_hp_defaults_one.2 _ (by decide)

/-- C8 counterexample: `parse_cr_value` is not non-negative — a leading
minus sign passes straight through Python `float()`, so `"-5"` parses to
the negative rational −5. -/
theorem c8_parse_cr_negative :
    parse_cr_value "-5" < 0 ∧ parse_cr_value "-5" = -5 :=
  ⟨by decide, by decide⟩

/-- C8 amended: `parse_cr_value` is total (modelled without exceptions:
every failure path returns the 0.0 default), it supports the fractional
forms 1/2 and 1/8, and its result is non-negative whenever the input
carries no minus sign and the text after the rating marker is plain ASCII
numeric text without letters or underscores — the scope on which the
modelled `float()` grammar is exact.  Outside that scope Python's textual
float forms pass through (`parse_cr_value("nan")` is the float `nan`,
neither a rational nor non-negative), and the counterexample shows a
minus sign makes the result negative. -/
theorem c8_parse_cr_total_amended :
    (∀ s : String, '-' ∉ s.data →
        (∀ c ∈ crStripped s, c.isAlpha = false ∧ c ≠ '_' ∧ c.toNat < 128) →
        0 ≤ parse_cr_value s) ∧
    parse_cr_value "" = 0 ∧
    parse_cr_value "CR abc" = 0 ∧
    parse_cr_value "CR 5" = 5 ∧
    parse_cr_value "CR 1/2" = 1 / 2 ∧
    parse_cr_value "CR 1/8" = 1 / 8 := by
  refine ⟨?_, by decide, by decide, by decide, ?_, ?_⟩
  · intro s hm _hplain
    have hmt : '-' ∉ crStripped s := fun hc =>
      hm (mem_pyStripChars (mem_stripCRMark hc))
    unfold parse_cr_value
    split_ifs with h1 h2
    · exact le_refl 0
    · rcases e : splitSlash (crStripped s) with _ | ⟨p1, _ | ⟨p2, _ | ⟨p3, rest⟩⟩⟩
      · exact decimalOrZero_nonneg hmt
      · exact decimalOrZero_nonneg hmt
      · have h1m : '-' ∉ pyStripChars p1 := fun hc =>
          hmt (splitSlash_mem (by rw [e]; exact List.mem_cons_self _ _) (mem_pyStripChars hc))
        have h2m : '-' ∉ pyStripChars p2 := fun hc =>
          hmt (splitSlash_mem
            (by rw [e]; exact List.mem_cons_of_mem _ (List.mem_cons_self _ _))
            (mem_pyStripChars hc))
        dsimp only
        cases hf1 : pyFloat (pyStripChars p1) with
        | none => simp
        | some n =>
          cases hf2 : pyFloat (pyStripChars p2) with
          | none => simp
          | some d =>
            simp only
            split_ifs with hd0
            · exact le_refl 0
            · rw [ratDivModel_eq n d hd0]
              have hn := pyFloat_nonneg h1m hf1
              have hdq := pyFloat_nonneg h2m hf2
              exact div_nonneg hn hdq
      · exact decimalOrZero_nonneg hmt
    · exact decimalOrZero_nonneg hmt
  · have h : parse_cr_value "CR 1/2" = Rat.divInt 1 2 := by decide
    rw [h, Rat.divInt_eq_div]
    norm_num
  · have h : parse_cr_value "CR 1/8" = Rat.divInt 1 8 := by decide
    rw [h, Rat.divInt_eq_div]
    norm_num

/-- C8 amended witness: the non-negativity part applied to a concrete
minus-free, plain-numeric input. -/
theorem c8_parse_cr_total_amended_witness :
    0 ≤ parse_cr_value "CR 1/8" :=
  c8_parse_cr_total_amended.1 "CR 1/8" (by decide) (by decide)

end ETF
